import Mathlib

/-!
Verification of the PDF_Signature repository against its specification.

The development shallowly embeds the two specified components:

* the client-side upload/validation/signing wizard of
  `src/components/MainPage.js` (file validation, the step state machine,
  the busy guard, the stepper, and the asynchronous sign request), and
* the signing service of `server/index.js` (the `/sign` route handler,
  per-page stamping geometry of `signPdf`, temp-file naming and cleanup).

Pure functions of the source become Lean functions; the React component's
state becomes an explicit `AppState` record, its event handlers become a
`dispatch` function over UI events (each handler is reachable only under the
render/`disabled` guards of the JSX), and the two `await` points (PDF parse
during validation, the `fetch` of a sign request) become explicit pending
flags resolved by separate resolution functions, so that interleavings of
user events with in-flight operations are represented faithfully.
-/

namespace Client

/-- Wizard steps; `currentStep` in MainPage.js is one of
`'upload' | 'preview' | 'signing' | 'done'`. -/
inductive Step
  | upload
  | preview
  | signing
  | done
deriving DecidableEq, Repr

/-- Toast severities used by the component (react-toastify calls). -/
inductive Severity
  | error
  | warning
  | success
deriving DecidableEq, Repr

/-- A fired toast notification: `toast.error(msg)` etc. -/
structure Toast where
  sev : Severity
  text : String
deriving DecidableEq, Repr

/-- Outcome of `PDFDocument.load` on the file's bytes: resolves, or rejects
with an error message (`err.message`). -/
inductive ParseOutcome
  | ok
  | err (message : String)
deriving DecidableEq, Repr

/-- A picked file: declared name, declared media type (`file.type`),
declared byte size (`file.size`), and what parsing its bytes would yield. -/
structure FileData where
  name : String
  ftype : String
  size : Nat
  parseOutcome : ParseOutcome
deriving DecidableEq, Repr

/-- `MAX_FILE_SIZE_BYTES = 10 * 1024 * 1024` in MainPage.js. -/
def maxFileSizeBytes : Nat := 10 * 1024 * 1024

/-- `const isPdf = (file) => file.type === "application/pdf"` -/
def isPdfB (f : FileData) : Bool := f.ftype == "application/pdf"

/-- Does `pat` occur as a contiguous run at the head of `s`?
(helper for the JS `String.prototype.includes` model) -/
def leadsList (pat s : List Char) : Bool :=
  match pat, s with
  | [], _ => true
  | _ :: _, [] => false
  | p :: ps, c :: cs => p == c && leadsList ps cs

/-- Does `pat` occur as a contiguous run anywhere in `s`? -/
def hasSubList (pat s : List Char) : Bool :=
  match s with
  | [] => pat.isEmpty
  | _ :: cs => leadsList pat s || hasSubList pat cs

/-- Model of JS `s.includes(pat)`. -/
def containsSub (s pat : String) : Bool := hasSubList pat.data s.data

/-- ASCII lowercasing of one character (model of what JS `toLowerCase`
does on the ASCII error messages involved). -/
def lowerChar (c : Char) : Char :=
  if 'A' ≤ c ∧ c ≤ 'Z' then Char.ofNat (c.toNat + 32) else c

/-- Model of JS `s.toLowerCase()` on ASCII strings. -/
def lowerStr (s : String) : String := ⟨s.data.map lowerChar⟩

/-- Result of `validateFile`: the returned boolean, the value written to
`fileValidationMessage` (`none` when the handler returns without touching
it), the toasts fired, and whether the file's bytes were read/parsed
(`pickedFile.arrayBuffer()` / `PDFDocument.load` were reached). -/
structure ValidationResult where
  valid : Bool
  message : Option String
  toasts : List Toast
  bytesRead : Bool
deriving DecidableEq, Repr

/-- `validateFile` of MainPage.js lines 53-92: media-type check, then size
check, then the structural parse of the bytes, mapping parse errors whose
message mentions "encrypted"/"password" to the password warning. -/
def validateFile : Option FileData → ValidationResult
  | none => ⟨false, none, [], false⟩
  | some f =>
    if isPdfB f = false then
      ⟨false, some "Only PDF files are allowed.",
        [⟨.error, "Only PDF files are allowed."⟩], false⟩
    else if f.size > maxFileSizeBytes then
      ⟨false, some "File size exceeds 10 MB limit.",
        [⟨.error, "File size exceeds 10 MB limit."⟩], false⟩
    else
      match f.parseOutcome with
      | .ok => ⟨true, some "", [], true⟩
      | .err m =>
        if m ≠ "" ∧ (containsSub (lowerStr m) "encrypted" ∨ containsSub (lowerStr m) "password") then
          ⟨false, some "File is password protected. Remove the password and try again.",
            [⟨.warning, "File is password protected. Remove the password and try again."⟩], true⟩
        else
          ⟨false, some ("Unable to read PDF: " ++ m),
            [⟨.error, "Unable to read PDF: " ++ m⟩], true⟩

end Client

namespace Client

/-- Observable side effects of the handlers: toasts, the single `fetch` to
`SIGN_ENDPOINT`, object-URL management (`URL.createObjectURL` /
`URL.revokeObjectURL`, handles numbered by a counter), and triggering a
download of a signed blob. -/
inductive Effect
  | toastFx (t : Toast)
  | networkCall
  | createHandle (h : Nat)
  | revokeHandle (h : Nat)
  | downloadFile (h : Nat) (name : String)
deriving DecidableEq, Repr

/-- The component's state: `useState` hooks of MainPage.js, plus explicit
pending flags for the two in-flight asynchronous operations (the awaited
parse inside `onDrop`/`validateFile` and the awaited `fetch` inside
`handleUpload`), and the fresh-handle counter backing object URLs. -/
structure AppState where
  currentStep : Step
  file : Option FileData
  filePreviewUrl : Option Nat
  signedUrl : Option Nat
  uploading : Bool
  loadingMessage : String
  fileValidationMessage : String
  pendingValidate : Option FileData
  pendingSign : Bool
  nextHandle : Nat
deriving DecidableEq, Repr

/-- `const isBusy = uploading || loadingMessage !== ""` -/
def isBusy (s : AppState) : Bool := s.uploading || s.loadingMessage != ""

/-- `stepIdx` of MainPage.js (switch over the step names). -/
def stepIdx : Step → Nat
  | .upload => 0
  | .preview => 1
  | .signing => 2
  | .done => 3

/-- `resetAll`: revoke both object URLs if present and clear every piece of
state back to the initial upload step.  In-flight promises cannot be
cancelled, so the pending flags survive a reset. -/
def resetAll (s : AppState) : AppState × List Effect :=
  ({ s with file := none, filePreviewUrl := none, signedUrl := none,
            uploading := false, loadingMessage := "", fileValidationMessage := "",
            currentStep := .upload },
   (match s.filePreviewUrl with
    | some h => [Effect.revokeHandle h]
    | none => []) ++
   (match s.signedUrl with
    | some h => [Effect.revokeHandle h]
    | none => []))

/-- `handleBack`: guarded by `loadingMessage || uploading`, then steps one
step backwards. -/
def handleBack (s : AppState) : AppState :=
  if isBusy s then s
  else
    match s.currentStep with
    | .preview => { s with currentStep := .upload }
    | .signing => { s with currentStep := .preview }
    | .done => { s with currentStep := .signing }
    | .upload => s

/-- The stepper's `onClick`/`onKeyDown` handler for the indicator at `idx`:
only indices strictly below the current step index react; index 0 resets,
index 1 jumps to preview, index 2 jumps to signing. -/
def stepperClick (s : AppState) (idx : Nat) : AppState × List Effect :=
  if idx < stepIdx s.currentStep then
    if idx = 0 then resetAll s
    else if idx = 1 then ({ s with currentStep := .preview }, [])
    else if idx = 2 then ({ s with currentStep := .signing }, [])
    else (s, [])
  else (s, [])

/-- The synchronous part of `handleUpload` up to the awaited `fetch`:
no file yields only an error toast; otherwise step moves to `signing`,
`withLoading` sets the loading message, and the network request starts. -/
def handleUploadStart (s : AppState) : AppState × List Effect :=
  match s.file with
  | none => (s, [Effect.toastFx ⟨.error, "Please select a valid PDF before signing."⟩])
  | some _ =>
    ({ s with currentStep := .signing, loadingMessage := "Signing document...",
              pendingSign := true },
     [Effect.networkCall])

/-- `handleDownload`: no-op without a signed URL and a file, otherwise
triggers a download named `signed-<file.name>`; no state change. -/
def handleDownload (s : AppState) : AppState × List Effect :=
  match s.signedUrl, s.file with
  | some h, some f => (s, [Effect.downloadFile h ("signed-" ++ f.name)])
  | _, _ => (s, [])

/-- `handleServerError` of MainPage.js lines 195-204.  It maps 413 to a
size message, 415 to a password warning and any other status to a generic
HTTP message, then resets.  It is declared in the component but no code
path invokes it (no other handler references it). -/
def handleServerError (s : AppState) (status : Nat) : AppState × List Effect :=
  let t : Toast :=
    if status = 413 then ⟨.error, "Upload failed: File exceeds 10 MB."⟩
    else if status = 415 then ⟨.warning, "Upload failed: PDF is password protected. Remove password."⟩
    else ⟨.error, "Upload failed: HTTP " ++ (if status = 0 then "Unknown error" else Nat.repr status)⟩
  let r := resetAll s
  (r.1, Effect.toastFx t :: r.2)

/-- User-interface events.  A drop carries the accepted files and the count
of files rejected by the dropzone pre-filter. -/
inductive Event
  | drop (accepted : List FileData) (rejectedCount : Nat)
  | signClick
  | backClick
  | stepperTap (idx : Nat)
  | removeClick
  | newUploadClick
  | downloadClick
deriving DecidableEq, Repr

/-- One user event.  Each handler runs exactly under the conditions the JSX
gives it: a button only exists while its step renders it, and a `disabled`
attribute suppresses the click.  The stepper indicators and the Done-step
buttons carry no `disabled={isBusy}` attribute. -/
def dispatch (s : AppState) : Event → AppState × List Effect
  | .drop accepted rejectedCount =>
    -- dropzone `disabled: loadingMessage !== "" || uploading`; `onDrop`
    -- repeats the same guard
    if isBusy s then (s, [])
    else if rejectedCount > 0 ∨ accepted.isEmpty then
      ({ s with fileValidationMessage := "" },
       [Effect.toastFx ⟨.error, "File type or size not supported. Please upload a PDF ≤ 10MB."⟩])
    else
      match accepted with
      | [] => (s, [])
      | f :: _ =>
        let r := resetAll s
        ({ r.1 with uploading := true, pendingValidate := some f }, r.2)
  | .signClick =>
    -- rendered while `currentStep === "preview" && file && !uploading`,
    -- `disabled={isBusy}`
    if s.currentStep = .preview ∧ s.file.isSome ∧ s.uploading = false ∧ isBusy s = false then
      handleUploadStart s
    else (s, [])
  | .backClick =>
    -- rendered while the step is neither upload nor done, `disabled={isBusy}`
    if (s.currentStep = .preview ∨ s.currentStep = .signing) ∧ isBusy s = false then
      (handleBack s, [])
    else (s, [])
  | .stepperTap idx => stepperClick s idx
  | .removeClick =>
    -- the preview-step "Remove File" button, `disabled={isBusy}`
    if s.currentStep = .preview ∧ s.file.isSome ∧ s.uploading = false ∧ isBusy s = false then
      resetAll s
    else (s, [])
  | .newUploadClick =>
    -- the done-step "New Upload" button (no disabled attribute)
    if s.currentStep = .done ∧ s.signedUrl.isSome then resetAll s else (s, [])
  | .downloadClick =>
    -- the done-step "Download PDF" button (no disabled attribute)
    if s.currentStep = .done ∧ s.signedUrl.isSome then handleDownload s else (s, [])

/-- Resolution of the awaited validation inside `onDrop`: apply
`validateFile`'s writes, then either finish the rejection or store the file
(the `useEffect` on `[file]` creates the preview object URL) and move to
preview. -/
def resolveValidate (s : AppState) (f : FileData) : AppState × List Effect :=
  let v := validateFile (some f)
  let s1 := { s with fileValidationMessage := v.message.getD s.fileValidationMessage,
                     pendingValidate := none }
  if v.valid then
    ({ s1 with file := some f, filePreviewUrl := some s.nextHandle,
               nextHandle := s.nextHandle + 1, uploading := false,
               currentStep := .preview },
     v.toasts.map Effect.toastFx ++ [Effect.createHandle s.nextHandle])
  else
    ({ s1 with uploading := false }, v.toasts.map Effect.toastFx)

/-- How the awaited `fetch` of `handleUpload` resolves: an HTTP response
with some status, or a rejected promise (network failure). -/
inductive SignResult
  | httpResponse (status : Nat)
  | netFail
deriving DecidableEq, Repr

/-- `response.ok`: status in the inclusive range 200-299. -/
def responseOk (status : Nat) : Bool := 200 ≤ status && status < 300

/-- The single toast fired on any failed sign attempt. -/
def signFailToast : Toast := ⟨.error, "Signing failed. Please try again after some time."⟩

/-- Resolution of a pending sign request (the rest of `handleUpload`): a
2xx response stores a fresh signed object URL and finishes in `done`; any
other status, and any network error, fires one failure toast and returns
to `preview`.  `withLoading`'s `finally` clears the loading message on
every path. -/
def resolveSign (s : AppState) (r : SignResult) : AppState × List Effect :=
  match r with
  | .httpResponse status =>
    if responseOk status then
      ({ s with signedUrl := some s.nextHandle, nextHandle := s.nextHandle + 1,
                currentStep := .done, loadingMessage := "", pendingSign := false },
       [Effect.createHandle s.nextHandle, Effect.toastFx ⟨.success, "PDF signed successfully!"⟩])
    else
      ({ s with currentStep := .preview, loadingMessage := "", pendingSign := false },
       [Effect.toastFx signFailToast])
  | .netFail =>
    ({ s with currentStep := .preview, loadingMessage := "", pendingSign := false },
     [Effect.toastFx signFailToast])

/-- Does a `SignResult` resolve as a failure (non-2xx status or network
error)? -/
def isFailResult : SignResult → Bool
  | .httpResponse status => !responseOk status
  | .netFail => true

/-- The initial state of the component. -/
def initState : AppState :=
  { currentStep := .upload, file := none, filePreviewUrl := none, signedUrl := none,
    uploading := false, loadingMessage := "", fileValidationMessage := "",
    pendingValidate := none, pendingSign := false, nextHandle := 0 }

/-- States the wizard can actually be in: the initial state, closed under
user events and under resolution of whichever asynchronous operation is
pending. -/
inductive Reachable : AppState → Prop
  | init : Reachable initState
  | ev (s : AppState) (e : Event) : Reachable s → Reachable (dispatch s e).1
  | validate (s : AppState) (f : FileData) :
      Reachable s → s.pendingValidate = some f → Reachable (resolveValidate s f).1
  | sign (s : AppState) (r : SignResult) :
      Reachable s → s.pendingSign = true → Reachable (resolveSign s r).1

/-- A well-formed small unencrypted PDF file, used in concrete traces. -/
def testPdf : FileData := ⟨"test.pdf", "application/pdf", 1000, .ok⟩

/-- After dropping `testPdf` on the initial state: validating. -/
def traceS1 : AppState := (dispatch initState (.drop [testPdf] 0)).1

/-- After the validation resolves: preview, file held. -/
def traceS2 : AppState := (resolveValidate traceS1 testPdf).1

/-- After clicking Sign: signing step, busy, request in flight. -/
def traceS3 : AppState := (dispatch traceS2 .signClick).1

/-- After the request resolves with HTTP 200: done, signed URL held. -/
def traceS4 : AppState := (resolveSign traceS3 (.httpResponse 200)).1

/-- After tapping the "Sign" step indicator (index 2) while on Done. -/
def traceS5 : AppState := (dispatch traceS4 (.stepperTap 2)).1

end Client

namespace Server

/-- One text drawn on a page by `page.drawText`: the string, the position
of its left edge and baseline, and the fixed styling options. -/
structure TextPlacement where
  text : String
  x : ℚ
  y : ℚ
  size : ℕ
  font : String
  color : ℚ × ℚ × ℚ
  opacity : ℚ
deriving DecidableEq

/-- `const fontSize = 13` in `signPdf`. -/
def fontSize : ℕ := 13

/-- `const margin = 18` in `signPdf`. -/
def margin : ℚ := 18

/-- `rgb(0.12, 0.55, 0.11)`, the stamp color of all three lines. -/
def stampColor : ℚ × ℚ × ℚ := (12/100, 55/100, 11/100)

/-- `const signatureText = "Signed by Mock Server"`. -/
def signatureText : String := "Signed by Mock Server"

/-- `const locationText = "Location: Dublin, Ireland"`. -/
def locationText : String := "Location: Dublin, Ireland"

/-- Font metrics oracle: what `font.widthOfTextAtSize(text, 13)` returns
for the embedded Helvetica-Bold font. -/
structure FontMetrics where
  widthOf : String → ℚ

/-- `maxWidth` in `signPdf`: the widest of the three signature lines
(`Math.max` over the three measured widths); `dtText` is the formatted
date/time line. -/
def blockWidth (fm : FontMetrics) (dtText : String) : ℚ :=
  max (fm.widthOf signatureText) (max (fm.widthOf dtText) (fm.widthOf locationText))

/-- The per-page body of `pdfDoc.getPages().forEach` in `signPdf`: the
three `drawText` calls on a page of width `pageWidth`, all at
`x = width - margin - maxWidth` and at `y` 44, 30, 16. -/
def stampPage (fm : FontMetrics) (dtText : String) (pageWidth : ℚ) : List TextPlacement :=
  let x := pageWidth - margin - blockWidth fm dtText
  [⟨signatureText, x, 44, fontSize, "Helvetica-Bold", stampColor, 98/100⟩,
   ⟨dtText, x, 30, fontSize, "Helvetica-Bold", stampColor, 98/100⟩,
   ⟨locationText, x, 16, fontSize, "Helvetica-Bold", stampColor, 98/100⟩]

/-- The right edge of a placed line: its left edge plus its measured
width. -/
def rightEdge (fm : FontMetrics) (p : TextPlacement) : ℚ := p.x + fm.widthOf p.text

/-- `originalName.replace(/[^a-zA-Z0-9.]/g, "_")`: is a character inside
the preserved class? -/
def safeChar (c : Char) : Bool :=
  ('a' ≤ c && c ≤ 'z') || ('A' ≤ c && c ≤ 'Z') || ('0' ≤ c && c ≤ '9') || c == '.'

/-- `safeName` in `signPdf`: every character outside `[a-zA-Z0-9.]` becomes
an underscore. -/
def safeName (s : String) : String :=
  ⟨s.data.map fun c => if safeChar c then c else '_'⟩

/-- The output temp file name: `` `signed-${Date.now()}-${safeName}` ``
with the timestamp rendered in decimal. -/
def signedFileName (t : Nat) (originalName : String) : String :=
  "signed-" ++ Nat.repr t ++ "-" ++ safeName originalName

/-- `path.join("uploads", fileName)`: the file name contains no path
separator, so the join is plain concatenation under `uploads/`. -/
def signedPathOf (t : Nat) (originalName : String) : String :=
  "uploads/" ++ signedFileName t originalName

/-- What `PDFDocument.load` does to the uploaded bytes on the server:
loads (with the encryption flag and the page widths), or throws. -/
inductive LoadResult
  | ok (encrypted : Bool) (pageWidths : List ℚ)
  | fail (message : String)
deriving DecidableEq

/-- `signPdf(inputPath, originalName)`: rethrows load failures, rejects
encrypted documents, otherwise stamps every page and returns the path the
signed bytes were written to together with the per-page stamp blocks. -/
def signPdf (fm : FontMetrics) (dtText : String) (load : LoadResult) (t : Nat)
    (originalName : String) : Except String (String × List (List TextPlacement)) :=
  match load with
  | .fail m => .error m
  | .ok true _ => .error "PDF is password protected"
  | .ok false pageWidths =>
    .ok (signedPathOf t originalName, pageWidths.map (stampPage fm dtText))

/-- Model of `path.extname(name)`: the suffix of the basename (the part
after the last `/`) from its last dot, empty when the basename has no dot
or only a leading one. -/
def extnameOf (name : String) : String :=
  let revBase := name.data.reverse.takeWhile (fun c => c != '/')
  let revTail := revBase.takeWhile (fun c => c != '.')
  if revTail.length = revBase.length then ""
  else if revTail.length + 1 = revBase.length then ""
  else ⟨'.' :: revTail.reverse⟩

/-- Filesystem actions the `/sign` route performs, in order. -/
inductive FsAction
  | createFile (p : String)
  | unlink (p : String)
deriving DecidableEq

/-- The response and the ordered filesystem actions of one request. -/
structure HandlerOutcome where
  status : Nat
  errorBody : Option String
  actions : List FsAction
deriving DecidableEq

/-- One `/sign` request: whether multer stored a file, the temp path it
stored it at (`req.file.path`), the client-declared original name, how
loading the bytes goes, the `Date.now()` value observed inside `signPdf`,
and whether the response send fails. -/
structure SignRequest where
  hasFile : Bool
  filePath : String
  originalname : String
  load : LoadResult
  timestamp : Nat
  sendError : Bool
deriving DecidableEq

/-- The `/sign` route handler of `server/index.js` lines 116-146.  Multer
stored the uploaded file before the handler body runs (first
`createFile`); `writeFileSync` inside a successful `signPdf` creates the
output file; `res.download`'s completion callback unlinks both temp files
whether or not the send erred; every error path unlinks the input. -/
def handleSign (fm : FontMetrics) (dtText : String) (r : SignRequest) : HandlerOutcome :=
  if r.hasFile = false then
    ⟨400, some "No file uploaded.", []⟩
  else
    let uploaded := [FsAction.createFile r.filePath]
    if Client.lowerStr (extnameOf r.originalname) ≠ ".pdf" then
      ⟨400, some "Only PDF files are allowed.", uploaded ++ [.unlink r.filePath]⟩
    else
      match signPdf fm dtText r.load r.timestamp r.originalname with
      | .ok (outPath, _) =>
        ⟨200, none, uploaded ++ [.createFile outPath, .unlink r.filePath, .unlink outPath]⟩
      | .error m =>
        if Client.containsSub (Client.lowerStr m) "password" then
          ⟨415, some "PDF is password protected. Please remove the password and try again.",
            uploaded ++ [.unlink r.filePath]⟩
        else
          ⟨500, some ("Signing failed: " ++ m), uploaded ++ [.unlink r.filePath]⟩

/-- The files a request created, in creation order. -/
def createdFiles (l : List FsAction) : List String :=
  l.filterMap fun a => match a with | .createFile p => some p | .unlink _ => none

/-- The files a request unlinked, in unlink order. -/
def removedFiles (l : List FsAction) : List String :=
  l.filterMap fun a => match a with | .createFile _ => none | .unlink p => some p

end Server

namespace Client

/-- A plain-text file, used as a concrete witness input. -/
def txtFile : FileData := ⟨"notes.txt", "text/plain", 5, .err "x"⟩

/-- A PDF-typed file one byte over the 10 MiB limit. -/
def hugePdf : FileData := ⟨"huge.pdf", "application/pdf", 10 * 1024 * 1024 + 1, .ok⟩

end Client

namespace Server

/-- Concrete font metrics used in witnesses: the signature line measures
100 units, the other two lines 50. -/
def demoMetrics : FontMetrics :=
  ⟨fun s => if s == signatureText then 100 else 50⟩

/-- A concrete formatted date/time line. -/
def demoDt : String := "01/01/2025, 12:00:00 (UTC)"

/-- A concrete well-formed request. -/
def reqA : SignRequest :=
  ⟨true, "uploads/tmp-aaaa", "contract.pdf", .ok false [612], 1731000000000, false⟩

/-- A second request arriving in the same millisecond with the same
original filename but its own multer temp path. -/
def reqB : SignRequest :=
  ⟨true, "uploads/tmp-bbbb", "contract.pdf", .ok false [612], 1731000000000, false⟩

end Server

namespace Server

lemma toDigitsCore_eq : ∀ (fuel n : Nat) (acc : List Char), 0 < n → n < 10 ^ fuel →
    Nat.toDigitsCore 10 fuel n acc = ((Nat.digits 10 n).map Nat.digitChar).reverse ++ acc := by
  intro fuel
  induction fuel with
  | zero =>
    intro n acc hn h
    simp only [pow_zero] at h
    omega
  | succ fuel ih =>
    intro n acc hn h
    by_cases h10 : n / 10 = 0
    · have hlt : n < 10 := by omega
      rw [Nat.toDigitsCore]
      simp only [h10, if_pos]
      rw [Nat.digits_def' (by norm_num : 1 < 10) hn, h10]
      simp [Nat.mod_eq_of_lt hlt]
    · rw [Nat.toDigitsCore]
      simp only [h10, if_neg, ite_false]
      rw [ih (n / 10) (Nat.digitChar (n % 10) :: acc) (Nat.pos_of_ne_zero h10)
        (Nat.nat_repr_len_aux n 10 fuel (by norm_num) h)]
      rw [Nat.digits_def' (by norm_num : 1 < 10) hn]
      simp [List.append_assoc]

lemma repr_data (n : Nat) (hn : 0 < n) :
    (Nat.repr n).data = ((Nat.digits 10 n).map Nat.digitChar).reverse := by
  show (Nat.toDigits 10 n).asString.data = _
  rw [Nat.toDigits, toDigitsCore_eq (n + 1) n [] hn]
  · simp [List.asString]
  · calc n < 10 ^ n := Nat.lt_pow_self (by norm_num) n
      _ ≤ 10 ^ (n + 1) := Nat.pow_le_pow_right (by norm_num) (Nat.le_succ n)

lemma repr_isDigit (n : Nat) : ∀ c ∈ (Nat.repr n).data, c.isDigit = true := by
  rcases Nat.eq_zero_or_pos n with rfl | hn
  · decide
  · rw [repr_data n hn]
    intro c hc
    rw [List.mem_reverse, List.mem_map] at hc
    obtain ⟨d, hd, rfl⟩ := hc
    have hd10 : d < 10 := Nat.digits_lt_base (by norm_num) hd
    have : ∀ d < 10, (Nat.digitChar d).isDigit = true := by decide
    exact this d hd10

lemma map_digitChar_inj : ∀ (l1 l2 : List ℕ), (∀ x ∈ l1, x < 10) → (∀ x ∈ l2, x < 10) →
    l1.map Nat.digitChar = l2.map Nat.digitChar → l1 = l2 := by
  intro l1
  induction l1 with
  | nil =>
    intro l2 _ _ h
    cases l2 with
    | nil => rfl
    | cons b bs => simp at h
  | cons a as ih =>
    intro l2 h1 h2 h
    cases l2 with
    | nil => simp at h
    | cons b bs =>
      simp only [List.map_cons, List.cons.injEq] at h
      have hinj : ∀ a < 10, ∀ b < 10, Nat.digitChar a = Nat.digitChar b → a = b := by decide
      have ha := h1 a (by simp)
      have hb := h2 b (by simp)
      have : a = b := hinj a ha b hb h.1
      subst this
      rw [ih bs (fun x hx => h1 x (by simp [hx])) (fun x hx => h2 x (by simp [hx])) h.2]

lemma repr_data_inj {m n : Nat} (h : (Nat.repr m).data = (Nat.repr n).data) : m = n := by
  rcases Nat.eq_zero_or_pos m with rfl | hm <;> rcases Nat.eq_zero_or_pos n with rfl | hn
  · rfl
  · exfalso
    rw [repr_data n hn] at h
    have h0 : (Nat.repr 0).data = ['0'] := by decide
    rw [h0] at h
    have hmap : (Nat.digits 10 n).map Nat.digitChar = ['0'] := by
      have := congrArg List.reverse h
      simpa using this.symm
    have hdig : Nat.digits 10 n = [0] := by
      cases hds : Nat.digits 10 n with
      | nil => rw [hds] at hmap; simp at hmap
      | cons d ds =>
        rw [hds] at hmap
        cases ds with
        | nil =>
          simp only [List.map_cons, List.map_nil, List.cons.injEq, and_true] at hmap
          have hd10 : d < 10 := Nat.digits_lt_base (by norm_num) (by rw [hds]; simp)
          have : ∀ d < 10, Nat.digitChar d = '0' → d = 0 := by decide
          rw [this d hd10 hmap]
        | cons e es => simp at hmap
    have := Nat.ofDigits_digits 10 n
    rw [hdig] at this
    simp [Nat.ofDigits] at this
    omega
  · exfalso
    rw [repr_data m hm] at h
    have h0 : (Nat.repr 0).data = ['0'] := by decide
    rw [h0] at h
    have hmap : (Nat.digits 10 m).map Nat.digitChar = ['0'] := by
      have := congrArg List.reverse h.symm
      simpa using this.symm
    have hdig : Nat.digits 10 m = [0] := by
      cases hds : Nat.digits 10 m with
      | nil => rw [hds] at hmap; simp at hmap
      | cons d ds =>
        rw [hds] at hmap
        cases ds with
        | nil =>
          simp only [List.map_cons, List.map_nil, List.cons.injEq, and_true] at hmap
          have hd10 : d < 10 := Nat.digits_lt_base (by norm_num) (by rw [hds]; simp)
          have : ∀ d < 10, Nat.digitChar d = '0' → d = 0 := by decide
          rw [this d hd10 hmap]
        | cons e es => simp at hmap
    have := Nat.ofDigits_digits 10 m
    rw [hdig] at this
    simp [Nat.ofDigits] at this
    omega
  · rw [repr_data m hm, repr_data n hn] at h
    have hmap := List.reverse_injective h
    have hdig := map_digitChar_inj _ _
      (fun x hx => Nat.digits_lt_base (by norm_num) hx)
      (fun x hx => Nat.digits_lt_base (by norm_num) hx) hmap
    have h1 := Nat.ofDigits_digits 10 m
    have h2 := Nat.ofDigits_digits 10 n
    rw [hdig] at h1
    rw [h2] at h1
    exact h1.symm

lemma digitRun_cancel : ∀ (a b s : List Char), (∀ c ∈ a, c.isDigit = true) →
    (∀ c ∈ b, c.isDigit = true) → a ++ '-' :: s = b ++ '-' :: s → a = b := by
  intro a
  induction a with
  | nil =>
    intro b s _ hb h
    cases b with
    | nil => rfl
    | cons c cs =>
      exfalso
      simp only [List.nil_append, List.cons_append, List.cons.injEq] at h
      have := hb c (by simp)
      rw [← h.1] at this
      simp at this
  | cons c cs ih =>
    intro b s ha hb h
    cases b with
    | nil =>
      exfalso
      simp only [List.nil_append, List.cons_append, List.cons.injEq] at h
      have := ha c (by simp)
      rw [h.1] at this
      simp at this
    | cons d ds =>
      simp only [List.cons_append, List.cons.injEq] at h
      rw [h.1, ih ds s (fun x hx => ha x (by simp [hx])) (fun x hx => hb x (by simp [hx])) h.2]

end Server

namespace Client

lemma dispatch_preserves (s : AppState) (e : Event) :
    ((dispatch s e).1.currentStep = s.currentStep ∧ (dispatch s e).1.signedUrl = s.signedUrl) ∨
    (dispatch s e).1.currentStep ≠ .done := by
  cases e with
  | drop a rc =>
    simp only [dispatch]
    split
    · exact Or.inl ⟨rfl, rfl⟩
    · split
      · exact Or.inl ⟨rfl, rfl⟩
      · split
        · exact Or.inl ⟨rfl, rfl⟩
        · right
          simp [resetAll]
  | signClick =>
    simp only [dispatch]
    split
    · simp only [handleUploadStart]
      split
      · exact Or.inl ⟨rfl, rfl⟩
      · right; simp
    · exact Or.inl ⟨rfl, rfl⟩
  | backClick =>
    simp only [dispatch]
    split
    · simp only [handleBack]
      split
      · exact Or.inl ⟨rfl, rfl⟩
      · split <;> simp
    · exact Or.inl ⟨rfl, rfl⟩
  | stepperTap idx =>
    simp only [dispatch, stepperClick]
    split
    · split
      · right; simp [resetAll]
      · split
        · right; simp
        · split
          · right; simp
          · exact Or.inl ⟨rfl, rfl⟩
    · exact Or.inl ⟨rfl, rfl⟩
  | removeClick =>
    simp only [dispatch]
    split
    · right; simp [resetAll]
    · exact Or.inl ⟨rfl, rfl⟩
  | newUploadClick =>
    simp only [dispatch]
    split
    · right; simp [resetAll]
    · exact Or.inl ⟨rfl, rfl⟩
  | downloadClick =>
    simp only [dispatch]
    split
    · simp only [handleDownload]
      split
      · exact Or.inl ⟨rfl, rfl⟩
      · exact Or.inl ⟨rfl, rfl⟩
    · exact Or.inl ⟨rfl, rfl⟩

end Client

namespace Client

lemma reachable_traceS1 : Reachable traceS1 :=
  Reachable.ev initState (.drop [testPdf] 0) Reachable.init

lemma reachable_traceS2 : Reachable traceS2 :=
  Reachable.validate traceS1 testPdf reachable_traceS1 (by decide)

lemma reachable_traceS3 : Reachable traceS3 :=
  Reachable.ev traceS2 .signClick reachable_traceS2

lemma reachable_traceS4 : Reachable traceS4 :=
  Reachable.sign traceS3 (.httpResponse 200) reachable_traceS3 (by decide)

lemma reachable_traceS5 : Reachable traceS5 :=
  Reachable.ev traceS4 (.stepperTap 2) reachable_traceS4

end Client

/-- C8 (amended): in every reachable state, being at the Done step implies
the signed-bytes handle is non-null.  (The converse direction of the claim
fails; see the counterexample.) -/
theorem C8_done_has_signed_handle (s : Client.AppState) (hs : Client.Reachable s)
    (hd : s.currentStep = Client.Step.done) : s.signedUrl.isSome = true := by
  induction hs with
  | init => exact absurd hd (by decide)
  | ev s' e hr ih =>
    rcases Client.dispatch_preserves s' e with ⟨h1, h2⟩ | h1
    · rw [h2]
      exact ih (h1 ▸ hd)
    · exact absurd hd h1
  | validate s' f hr hpv ih =>
    revert hd
    simp only [Client.resolveValidate]
    split
    · intro hd
      simp at hd
    · intro hd
      simp only at hd ⊢
      exact ih hd
  | sign s' r hr hp ih =>
    revert hd
    cases r with
    | httpResponse status =>
      simp only [Client.resolveSign]
      split
      · intro _; simp
      · intro hd; simp at hd
    | netFail =>
      simp only [Client.resolveSign]
      intro hd
      simp at hd

/-- C8 witness: the concrete reachable Done state holds a signed handle. -/
theorem C8_witness : Client.traceS4.signedUrl.isSome = true :=
  C8_done_has_signed_handle Client.traceS4 Client.reachable_traceS4 (by decide)

/-- C8 counterexample: a reachable state (Done, then tapping the "Sign"
step indicator) that is not at Done yet still holds the signed handle, so
"signed-bytes handle non-null iff step is Done" fails on the code. -/
theorem C8_cex :
    Client.Reachable Client.traceS5 ∧
    Client.traceS5.currentStep ≠ Client.Step.done ∧
    Client.traceS5.signedUrl.isSome = true :=
  ⟨Client.reachable_traceS5, by decide, by decide⟩

/-- C1: `validateFile` rejects a non-PDF declared media type with the
not-a-pdf message before ever reading or parsing the bytes, and rejects a
PDF-typed file whose declared size exceeds 10 MiB with the too-large
message before parsing, regardless of the file's content. -/
theorem C1_type_then_size_before_parse (f : Client.FileData) :
    (Client.isPdfB f = false →
      Client.validateFile (some f) =
        ⟨false, some "Only PDF files are allowed.",
         [⟨.error, "Only PDF files are allowed."⟩], false⟩) ∧
    (Client.isPdfB f = true → f.size > Client.maxFileSizeBytes →
      Client.validateFile (some f) =
        ⟨false, some "File size exceeds 10 MB limit.",
         [⟨.error, "File size exceeds 10 MB limit."⟩], false⟩) := by
  constructor
  · intro h
    simp [Client.validateFile, h]
  · intro h hs
    simp [Client.validateFile, h, hs]

/-- C1 witness: a text/plain file is rejected as not-a-pdf unread, and an
oversized PDF-typed file is rejected as too-large unread. -/
theorem C1_witness :
    Client.validateFile (some Client.txtFile) =
      ⟨false, some "Only PDF files are allowed.",
       [⟨.error, "Only PDF files are allowed."⟩], false⟩ ∧
    Client.validateFile (some Client.hugePdf) =
      ⟨false, some "File size exceeds 10 MB limit.",
       [⟨.error, "File size exceeds 10 MB limit."⟩], false⟩ :=
  ⟨(C1_type_then_size_before_parse Client.txtFile).1 (by decide),
   (C1_type_then_size_before_parse Client.hugePdf).2 (by decide) (by decide)⟩

/-- C2 (amended): while the busy flag is set, the busy-guarded operations
— file selection/drop, a further sign request, back navigation, and the
preview-step Remove — are no-ops with no effects (in particular no second
network call).  The step-indicator handlers carry no busy guard; see the
counterexample. -/
theorem C2_busy_guarded_ops (s : Client.AppState) (h : Client.isBusy s = true) :
    (∀ accepted rejectedCount,
      Client.dispatch s (.drop accepted rejectedCount) = (s, [])) ∧
    Client.dispatch s .signClick = (s, []) ∧
    Client.dispatch s .backClick = (s, []) ∧
    Client.dispatch s .removeClick = (s, []) := by
  refine ⟨fun a rc => ?_, ?_, ?_, ?_⟩ <;>
    simp [Client.dispatch, h]

/-- C2 witness: in the concrete busy signing state, a second sign click,
a drop, a back click and a remove click all do nothing. -/
theorem C2_witness :
    Client.dispatch Client.traceS3 (.drop [Client.testPdf] 0) = (Client.traceS3, []) ∧
    Client.dispatch Client.traceS3 .signClick = (Client.traceS3, []) :=
  ⟨(C2_busy_guarded_ops Client.traceS3 (by decide)).1 [Client.testPdf] 0,
   (C2_busy_guarded_ops Client.traceS3 (by decide)).2.1⟩

/-- C2 counterexample: in the reachable busy signing state, tapping the
"Preview" step indicator mutates the state (the stepper handlers have no
busy guard), so "every mutating operation is a no-op while busy" fails. -/
theorem C2_cex :
    Client.isBusy Client.traceS3 = true ∧
    (Client.dispatch Client.traceS3 (.stepperTap 1)).1.currentStep = Client.Step.preview ∧
    (Client.dispatch Client.traceS3 (.stepperTap 1)).1 ≠ Client.traceS3 := by
  refine ⟨by decide, by decide, by decide⟩

/-- C3: a sign attempt resolving as failed (non-2xx status or network
error) returns the wizard to Preview, emits exactly one failure toast,
leaves the held document and both handles unchanged, and (as long as no
upload validation is separately in flight) clears the busy flag. -/
theorem C3_sign_failure_recovers (s : Client.AppState) (r : Client.SignResult)
    (hf : Client.isFailResult r = true) :
    (Client.resolveSign s r).1.currentStep = Client.Step.preview ∧
    (Client.resolveSign s r).1.file = s.file ∧
    (Client.resolveSign s r).1.filePreviewUrl = s.filePreviewUrl ∧
    (Client.resolveSign s r).1.signedUrl = s.signedUrl ∧
    (Client.resolveSign s r).2 = [Client.Effect.toastFx Client.signFailToast] ∧
    Client.signFailToast.sev = .error ∧
    (s.uploading = false → Client.isBusy (Client.resolveSign s r).1 = false) := by
  cases r with
  | netFail =>
    refine ⟨rfl, rfl, rfl, rfl, rfl, rfl, fun hu => ?_⟩
    simp [Client.resolveSign, Client.isBusy, hu]
  | httpResponse status =>
    simp only [Client.isFailResult, Bool.not_eq_true'] at hf
    refine ⟨?_, ?_, ?_, ?_, ?_, rfl, ?_⟩ <;>
      simp [Client.resolveSign, Client.isBusy, hf]

/-- C3 witness: the concrete pending sign request resolving with a network
error lands back in Preview, not busy, document intact. -/
theorem C3_witness :
    (Client.resolveSign Client.traceS3 .netFail).1.currentStep = Client.Step.preview ∧
    (Client.resolveSign Client.traceS3 .netFail).1.file = Client.traceS3.file ∧
    Client.isBusy (Client.resolveSign Client.traceS3 .netFail).1 = false := by
  have h := C3_sign_failure_recovers Client.traceS3 .netFail (by decide)
  exact ⟨h.1, h.2.1, h.2.2.2.2.2.2 (by decide)⟩

/-- C5: evaluating the sign-request resolution at the failing input — an
HTTP 413 — yields exactly the same state and the same generic failure
toast as statuses 500 and 415: the distinct mapping the claim describes
exists only in the never-invoked `handleServerError` helper, which does
distinguish 413 from 500. -/
theorem C5_uniform_failure_mapping :
    Client.resolveSign Client.traceS3 (.httpResponse 413) =
      Client.resolveSign Client.traceS3 (.httpResponse 500) ∧
    Client.resolveSign Client.traceS3 (.httpResponse 413) =
      Client.resolveSign Client.traceS3 (.httpResponse 415) ∧
    (Client.resolveSign Client.traceS3 (.httpResponse 413)).2 =
      [Client.Effect.toastFx Client.signFailToast] ∧
    (Client.resolveSign Client.traceS3 (.httpResponse 413)).1.currentStep =
      Client.Step.preview ∧
    (Client.handleServerError Client.traceS3 413).2.head? ≠
      (Client.handleServerError Client.traceS3 500).2.head? := by
  refine ⟨by decide, by decide, by decide, by decide, by decide⟩

/-- C7 (amended): step indicators at or beyond the current step are
no-ops, but at Done the indicators for earlier steps are not inert: index
0 resets, index 1 navigates to Preview, index 2 navigates to Signing. -/
theorem C7_stepper_policy (s : Client.AppState) :
    (∀ idx, Client.stepIdx s.currentStep ≤ idx →
      Client.dispatch s (.stepperTap idx) = (s, [])) ∧
    (s.currentStep = Client.Step.done →
      Client.dispatch s (.stepperTap 0) = Client.resetAll s ∧
      Client.dispatch s (.stepperTap 1) = ({ s with currentStep := .preview }, []) ∧
      Client.dispatch s (.stepperTap 2) = ({ s with currentStep := .signing }, [])) := by
  constructor
  · intro idx h
    simp [Client.dispatch, Client.stepperClick, Nat.not_lt.mpr h]
  · intro h
    refine ⟨?_, ?_, ?_⟩ <;> simp [Client.dispatch, Client.stepperClick, h, Client.stepIdx]

/-- C7 witness: at the concrete Done state, tapping the current indicator
does nothing and tapping the "Sign" indicator navigates to Signing. -/
theorem C7_witness :
    Client.dispatch Client.traceS4 (.stepperTap 3) = (Client.traceS4, []) ∧
    Client.dispatch Client.traceS4 (.stepperTap 2) =
      ({ Client.traceS4 with currentStep := .signing }, []) :=
  ⟨(C7_stepper_policy Client.traceS4).1 3 (by decide),
   ((C7_stepper_policy Client.traceS4).2 (by decide)).2.2⟩

/-- C7 counterexample: with the wizard at Done, activating the "Preview"
step indicator is not a no-op — the wizard leaves Done — so the claimed
inertness of earlier indicators at Done fails on the code. -/
theorem C7_cex :
    Client.traceS4.currentStep = Client.Step.done ∧
    (Client.dispatch Client.traceS4 (.stepperTap 1)).1.currentStep = Client.Step.preview ∧
    (Client.dispatch Client.traceS4 (.stepperTap 1)).1 ≠ Client.traceS4 := by
  refine ⟨by decide, by decide, by decide⟩

/-- C4: on every exit path of the `/sign` handler — successful send,
failed send, extension rejection, encrypted rejection, unexpected error —
the files created for the request (input temp file, and the signed output
when it was created) are exactly the files unlinked afterward; and the
outcome does not depend on whether the send erred. -/
theorem C4_cleanup_every_exit_path (fm : Server.FontMetrics) (dtText : String)
    (r : Server.SignRequest) :
    Server.createdFiles (Server.handleSign fm dtText r).actions =
      Server.removedFiles (Server.handleSign fm dtText r).actions ∧
    Server.handleSign fm dtText { r with sendError := true } =
      Server.handleSign fm dtText { r with sendError := false } := by
  constructor
  · simp only [Server.handleSign]
    split
    · simp [Server.createdFiles, Server.removedFiles]
    · split
      · simp [Server.createdFiles, Server.removedFiles]
      · split
        · simp [Server.createdFiles, Server.removedFiles]
        · split <;> simp [Server.createdFiles, Server.removedFiles]
  · rfl

/-- C4 witness: a request whose document loads as encrypted is answered
with 415, and the files it created equal the files it removed. -/
theorem C4_witness :
    (Server.handleSign Server.demoMetrics Server.demoDt
      { Server.reqA with load := .ok true [612] }).status = 415 ∧
    Server.createdFiles
        (Server.handleSign Server.demoMetrics Server.demoDt
          { Server.reqA with load := .ok true [612] }).actions =
      Server.removedFiles
        (Server.handleSign Server.demoMetrics Server.demoDt
          { Server.reqA with load := .ok true [612] }).actions :=
  ⟨by decide,
   (C4_cleanup_every_exit_path Server.demoMetrics Server.demoDt
     { Server.reqA with load := .ok true [612] }).1⟩

/-- C6 (amended): every page receives a block of three lines in the fixed
bold font, size and color at the fixed y positions; all three lines share
one left edge, computed from the widest line so that the block's widest
line ends exactly at the right margin (narrower lines are left-aligned
with it rather than flush-right; see the counterexample). -/
theorem C6_stamp_block_geometry (fm : Server.FontMetrics) (dtText : String)
    (pageWidth : ℚ) (pages : List ℚ) (t : Nat) (name : String) :
    (Server.stampPage fm dtText pageWidth).length = 3 ∧
    (∀ p ∈ Server.stampPage fm dtText pageWidth,
      p.x = pageWidth - Server.margin - Server.blockWidth fm dtText ∧
      p.size = Server.fontSize ∧ p.font = "Helvetica-Bold" ∧ p.color = Server.stampColor) ∧
    (Server.stampPage fm dtText pageWidth).map Server.TextPlacement.y = [44, 30, 16] ∧
    (Server.stampPage fm dtText pageWidth).map Server.TextPlacement.text =
      [Server.signatureText, dtText, Server.locationText] ∧
    (∃ p ∈ Server.stampPage fm dtText pageWidth,
      Server.rightEdge fm p = pageWidth - Server.margin) ∧
    Server.signPdf fm dtText (.ok false pages) t name =
      .ok (Server.signedPathOf t name, pages.map (Server.stampPage fm dtText)) := by
  refine ⟨rfl, ?_, rfl, rfl, ?_, rfl⟩
  · intro p hp
    simp only [Server.stampPage, List.mem_cons, List.not_mem_nil, or_false] at hp
    rcases hp with rfl | rfl | rfl <;> exact ⟨rfl, rfl, rfl, rfl⟩
  · have hmax : Server.blockWidth fm dtText = fm.widthOf Server.signatureText ∨
        Server.blockWidth fm dtText = fm.widthOf dtText ∨
        Server.blockWidth fm dtText = fm.widthOf Server.locationText := by
      unfold Server.blockWidth
      rcases max_choice (fm.widthOf Server.signatureText)
        (max (fm.widthOf dtText) (fm.widthOf Server.locationText)) with h | h
      · exact Or.inl h
      · rcases max_choice (fm.widthOf dtText) (fm.widthOf Server.locationText) with h2 | h2
        · exact Or.inr (Or.inl (h.trans h2))
        · exact Or.inr (Or.inr (h.trans h2))
    rcases hmax with h | h | h
    · exact ⟨⟨Server.signatureText, pageWidth - Server.margin - Server.blockWidth fm dtText,
        44, Server.fontSize, "Helvetica-Bold", Server.stampColor, 98/100⟩,
        by simp [Server.stampPage], by simp [Server.rightEdge, ← h]⟩
    · exact ⟨⟨dtText, pageWidth - Server.margin - Server.blockWidth fm dtText,
        30, Server.fontSize, "Helvetica-Bold", Server.stampColor, 98/100⟩,
        by simp [Server.stampPage], by simp [Server.rightEdge, ← h]⟩
    · exact ⟨⟨Server.locationText, pageWidth - Server.margin - Server.blockWidth fm dtText,
        16, Server.fontSize, "Helvetica-Bold", Server.stampColor, 98/100⟩,
        by simp [Server.stampPage], by simp [Server.rightEdge, ← h]⟩

/-- C6 witness: with the signature line measuring 100 and the others 50 on
a 600-wide page, the block has three lines and its widest line ends at the
right margin 582. -/
theorem C6_witness :
    (Server.stampPage Server.demoMetrics Server.demoDt 600).length = 3 ∧
    (∃ p ∈ Server.stampPage Server.demoMetrics Server.demoDt 600,
      Server.rightEdge Server.demoMetrics p = 600 - Server.margin) :=
  ⟨(C6_stamp_block_geometry Server.demoMetrics Server.demoDt 600 [] 0 "").1,
   (C6_stamp_block_geometry Server.demoMetrics Server.demoDt 600 [] 0 "").2.2.2.2.1⟩

/-- C6 counterexample: the three lines are drawn at one common left edge,
so their right edges are 582, 532, 532 on a 600-wide page with line widths
100, 50, 50 — the second and third lines do not end flush at the right
margin 582, refuting "all three lines align flush-right". -/
theorem C6_cex :
    (Server.stampPage Server.demoMetrics Server.demoDt 600).map
        (Server.rightEdge Server.demoMetrics) = [582, 532, 532] ∧
    (532 : ℚ) ≠ 600 - Server.margin := by
  have h1 : Server.demoMetrics.widthOf Server.signatureText = 100 := by
    simp [Server.demoMetrics]
  have h2 : Server.demoMetrics.widthOf Server.demoDt = 50 := by
    simp [Server.demoMetrics, Server.demoDt, Server.signatureText]
  have h3 : Server.demoMetrics.widthOf Server.locationText = 50 := by
    simp [Server.demoMetrics, Server.locationText, Server.signatureText]
  constructor
  · simp only [Server.stampPage, Server.rightEdge, Server.blockWidth, h1, h2, h3,
      List.map_cons, List.map_nil]
    norm_num [Server.margin]
  · norm_num [Server.margin]

/-- C9 (amended): requests whose `Date.now()` values differ produce
distinct output temp paths (for any same original filename); requests
falling in the same millisecond with the same filename collide — see the
counterexample. -/
theorem C9_distinct_stamps_distinct_paths (t1 t2 : Nat) (name : String) (h : t1 ≠ t2) :
    Server.signedPathOf t1 name ≠ Server.signedPathOf t2 name := by
  intro heq
  apply h
  have hd := congrArg String.data heq
  simp only [Server.signedPathOf, Server.signedFileName, String.data_append,
    List.append_assoc] at hd
  have h1 := List.append_cancel_left hd
  have h2 := List.append_cancel_left h1
  have h3 : "-".data ++ (Server.safeName name).data =
      '-' :: (Server.safeName name).data := rfl
  rw [h3] at h2
  exact Server.repr_data_inj
    (Server.digitRun_cancel _ _ _ (Server.repr_isDigit t1) (Server.repr_isDigit t2) h2)

/-- C9 witness: two requests one millisecond apart with the same filename
get distinct output paths. -/
theorem C9_witness :
    Server.signedPathOf 1731000000000 "contract.pdf" ≠
      Server.signedPathOf 1731000000001 "contract.pdf" :=
  C9_distinct_stamps_distinct_paths 1731000000000 1731000000001 "contract.pdf" (by decide)

/-- C9 counterexample: two distinct concurrent requests that observe the
same `Date.now()` millisecond and carry the same original filename are
mapped to the same output temp path, so "neither request can collide" fails
on the code. -/
theorem C9_cex :
    Server.reqA ≠ Server.reqB ∧
    Server.signedPathOf Server.reqA.timestamp Server.reqA.originalname =
      Server.signedPathOf Server.reqB.timestamp Server.reqB.originalname := by
  refine ⟨by decide, rfl⟩

namespace Server

lemma safeName_mem (s : String) :
    ∀ c ∈ (safeName s).data, (safeChar c || c == '_') = true := by
  intro c hc
  simp only [safeName, List.mem_map] at hc
  obtain ⟨orig, _, rfl⟩ := hc
  by_cases h : safeChar orig
  · simp [h]
  · simp [h]

lemma signedFileName_data (t : Nat) (name : String) :
    (signedFileName t name).data =
      ['s', 'i', 'g', 'n', 'e', 'd', '-'] ++
        ((Nat.repr t).data ++ ('-' :: (safeName name).data)) := by
  show (("signed-" ++ Nat.repr t ++ "-") ++ safeName name).data = _
  simp only [String.data_append, List.append_assoc]
  rfl

end Server

/-- C10: the output temp file name replaces every character outside
`[a-zA-Z0-9.]` of the original name with an underscore and prefixes
`signed-<timestamp>-`, so it never contains a path separator and is never
empty, `.` or `..`; joined under `uploads/` the result is always a direct
child of the uploads directory. -/
theorem C10_sanitized_output_path (t : Nat) (name : String) :
    Server.signedPathOf t name = "uploads/" ++ Server.signedFileName t name ∧
    (∀ c ∈ (Server.safeName name).data, (Server.safeChar c || c == '_') = true) ∧
    (∀ c ∈ (Server.signedFileName t name).data, c ≠ '/' ∧ c ≠ '\\') ∧
    Server.signedFileName t name ≠ "" ∧
    Server.signedFileName t name ≠ "." ∧
    Server.signedFileName t name ≠ ".." := by
  have hmem : ∀ c ∈ (Server.signedFileName t name).data, c ≠ '/' ∧ c ≠ '\\' := by
    intro c hc
    rw [Server.signedFileName_data] at hc
    rcases List.mem_append.1 hc with h | h
    · have hfix : ∀ x ∈ ['s', 'i', 'g', 'n', 'e', 'd', '-'], x ≠ '/' ∧ x ≠ '\\' := by decide
      exact hfix c h
    · rcases List.mem_append.1 h with h | h
      · have hd := Server.repr_isDigit t c h
        constructor <;> intro he <;> rw [he] at hd <;> simp at hd
      · rcases List.mem_cons.1 h with rfl | h
        · exact ⟨by decide, by decide⟩
        · have hs := Server.safeName_mem name c h
          constructor <;> intro he <;> rw [he] at hs <;> simp [Server.safeChar] at hs
  have hlen : 7 ≤ (Server.signedFileName t name).data.length := by
    rw [Server.signedFileName_data]
    simp
  refine ⟨rfl, Server.safeName_mem name, hmem, ?_, ?_, ?_⟩
  · intro h
    rw [h] at hlen
    exact absurd hlen (by decide)
  · intro h
    rw [h] at hlen
    exact absurd hlen (by decide)
  · intro h
    rw [h] at hlen
    exact absurd hlen (by decide)

/-- C10 witness: a hostile original name full of separators and dot-dot
segments sanitizes to a separator-free name directly inside `uploads/`. -/
theorem C10_witness :
    Server.signedPathOf 99 "../../etc/passwd" =
      "uploads/" ++ Server.signedFileName 99 "../../etc/passwd" ∧
    (('.' : Char) ≠ '/' ∧ ('.' : Char) ≠ '\\') ∧
    Server.signedFileName 99 "../../etc/passwd" ≠ "" :=
  ⟨(C10_sanitized_output_path 99 "../../etc/passwd").1,
   (C10_sanitized_output_path 99 "../../etc/passwd").2.2.1 '.' (by decide),
   (C10_sanitized_output_path 99 "../../etc/passwd").2.2.2.1⟩
